import Mathlib

/-!
Verification of the repositories store (`src/shared-process/repositories-store.ts`).

The store persists a small relational graph over three tables — `repositories`,
`gitHubRepositories`, `owners` — on top of a transactional embedded store
(Dexie).  We embed the three tables as lists of rows plus per-table id
counters, the store primitives (`get`, `add`, `put`, `where(..).equalsIgnoreCase`,
`toArray`) as pure functions over that state, and each public operation as a
function run inside a `transaction` wrapper: on error the pre-state is the
visible state (rollback), on success the body's final state is committed.

JavaScript failure behaviour is embedded explicitly: reading a field of
`undefined` (a missing row) raises a `TypeError`, and Dexie's `get`/`put`
with a `null`/`undefined` key raises a `DataError`; both abort the enclosing
transaction.  These are represented as `Except.error`.
-/

namespace RepositoriesStore

/-- Modelled from the spec (§3): the `Owner(login, endpoint)` domain value
object; `src/models/owner.ts` is not among the sources, only its use sites. -/
structure Owner where
  login : String
  endpoint : String
deriving Repr, DecidableEq

/-- Modelled from the spec (§3): the `HostedRepository(name, Owner, private,
fork, htmlURL)` domain value object (`GitHubRepository` in the code);
`src/models/github-repository.ts` is not among the sources. -/
structure GitHubRepository where
  name : String
  owner : Owner
  «private» : Bool
  fork : Bool
  htmlURL : String
deriving Repr, DecidableEq

/-- Modelled from the spec (§3): the `Repository(path, optional
HostedRepository, id)` domain value object; `src/models/repository.ts` is not
among the sources.  A fresh repository has `id = none`. -/
structure Repository where
  path : String
  gitHubRepository : Option GitHubRepository
  id : Option Nat
deriving Repr, DecidableEq

/-- Modelled from the spec (§4.1 step 4): `repositoryWithID` re-expresses the
input Repository with the newly assigned id, all other fields unchanged. -/
def Repository.repositoryWithID (repo : Repository) (id : Nat) : Repository :=
  { repo with id := some id }

/-- A row of the `owners` table: `{id (auto), login, endpoint}`. -/
structure OwnerRow where
  id : Nat
  login : String
  endpoint : String
deriving Repr, DecidableEq

/-- A row of the `gitHubRepositories` table:
`{id (auto), name, ownerID, private, fork, htmlURL}`. -/
structure GitHubRepositoryRow where
  id : Nat
  name : String
  ownerID : Nat
  «private» : Bool
  fork : Bool
  htmlURL : String
deriving Repr, DecidableEq

/-- A row of the `repositories` table:
`{id (auto), path, gitHubRepositoryID (nullable)}`. -/
structure RepositoryRow where
  id : Nat
  path : String
  gitHubRepositoryID : Option Nat
deriving Repr, DecidableEq

/-- The persistent state: the three tables (in insertion order, as Dexie's
auto-increment primary keys make table order follow insertion order) and the
auto-increment counter of each table. -/
structure Database where
  repositories : List RepositoryRow
  gitHubRepositories : List GitHubRepositoryRow
  owners : List OwnerRow
  nextRepositoryID : Nat
  nextGitHubRepositoryID : Nat
  nextOwnerID : Nat
deriving Repr, DecidableEq

/-- The empty store: no rows, all id counters at 0. -/
def emptyDatabase : Database :=
  { repositories := []
    gitHubRepositories := []
    owners := []
    nextRepositoryID := 0
    nextGitHubRepositoryID := 0
    nextOwnerID := 0 }

/-- JavaScript's `toLowerCase` over a string, character by character (what
Dexie's `equalsIgnoreCase` compares with). -/
def lowerString (s : String) : String := ⟨s.data.map Char.toLower⟩

/-- `db.owners.where('login').equalsIgnoreCase(login).limit(1).first()`:
the first owner row whose login equals the key ignoring case. -/
def ownersFirstByLoginIgnoreCase (owners : List OwnerRow) (login : String) : Option OwnerRow :=
  owners.find? (fun o => lowerString o.login == lowerString login)

/-- `db.owners.add({login, endpoint})`: append a row under a fresh generated
id, returning the id. -/
def ownersAdd (db : Database) (login endpoint : String) : Nat × Database :=
  (db.nextOwnerID,
   { db with
       owners := db.owners ++ [⟨db.nextOwnerID, login, endpoint⟩]
       nextOwnerID := db.nextOwnerID + 1 })

/-- `db.gitHubRepositories.add({name, ownerID, private, fork, htmlURL})`:
append a row under a fresh generated id, returning the id. -/
def gitHubRepositoriesAdd (db : Database) (name : String) (ownerID : Nat)
    («private» fork : Bool) (htmlURL : String) : Nat × Database :=
  (db.nextGitHubRepositoryID,
   { db with
       gitHubRepositories :=
         db.gitHubRepositories ++
           [⟨db.nextGitHubRepositoryID, name, ownerID, «private», fork, htmlURL⟩]
       nextGitHubRepositoryID := db.nextGitHubRepositoryID + 1 })

/-- `db.repositories.add({path, gitHubRepositoryID})`: append a row under a
fresh generated id, returning the id. -/
def repositoriesAdd (db : Database) (path : String) (gitHubRepositoryID : Option Nat) :
    Nat × Database :=
  (db.nextRepositoryID,
   { db with
       repositories := db.repositories ++ [⟨db.nextRepositoryID, path, gitHubRepositoryID⟩]
       nextRepositoryID := db.nextRepositoryID + 1 })

/-- `table.get(key)` with a nullable key: Dexie raises `DataError` on a
`null`/`undefined` key; on a numeric key it yields the row with that primary
key, or `undefined` (here `none`) when absent. -/
def tableGet {Row : Type} (rows : List Row) (rowID : Row → Nat) (key : Option Nat) :
    Except String (Option Row) :=
  match key with
  | none => .error "DataError: invalid key"
  | some k => .ok (rows.find? (fun r => rowID r == k))

/-- `table.put(row)` at a known primary key: insert-or-replace. -/
def putRow {Row : Type} (rows : List Row) (rowID : Row → Nat) (row : Row) : List Row :=
  if rows.any (fun r => rowID r == rowID row) then
    rows.map (fun r => if rowID r == rowID row then row else r)
  else
    rows ++ [row]

/-- `this.db.transaction(mode, ..., body)`: run the body against the current
state; commit its final state on success, keep the pre-state on abort. -/
def transaction {α : Type} (db : Database) (body : Database → Except String (α × Database)) :
    Except String α × Database :=
  match body db with
  | .ok (a, db') => (.ok a, db')
  | .error e => (.error e, db)

/-- The loop body of `getRepositories`: inflate each repository row in table
order.  For a linked row the code fetches the gitHubRepositories row, reads
`gitHubRepository.ownerID` (a `TypeError` when the row is absent), fetches the
owner, and reads `owner.login` (a `TypeError` when the owner is absent). -/
def inflateRepos (db : Database) : List RepositoryRow → Except String (List Repository)
  | [] => .ok []
  | repo :: rest =>
    match repo.gitHubRepositoryID with
    | some gid =>
      match db.gitHubRepositories.find? (fun r => r.id == gid) with
      | none => .error "TypeError: cannot read ownerID of undefined"
      | some gitHubRepository =>
        match db.owners.find? (fun o => o.id == gitHubRepository.ownerID) with
        | none => .error "TypeError: cannot read login of undefined"
        | some owner =>
          (inflateRepos db rest).map (fun inflated =>
            ⟨repo.path,
             some ⟨gitHubRepository.name, ⟨owner.login, owner.endpoint⟩,
                   gitHubRepository.private, gitHubRepository.fork, gitHubRepository.htmlURL⟩,
             some repo.id⟩ :: inflated)
    | none =>
      (inflateRepos db rest).map (fun inflated =>
        ⟨repo.path, none, some repo.id⟩ :: inflated)

/-- `getRepositories()`: a read-only transaction over all three tables that
inflates every row of `repositories`; an inflation failure rejects the whole
call.  Being read-only it leaves the state unchanged. -/
def getRepositories (db : Database) : Except String (List Repository) :=
  inflateRepos db db.repositories

/-- The transaction body of `addRepository`, with a fault-injection point:
`failAt = some s` makes the underlying store fail when (and only when) the
primitive at site `s` is executed — site 0 the owner lookup, site 1
`owners.add`, site 2 `gitHubRepositories.add`, site 3 `repositories.add`.
`failAt = none` is the normal run.  Returns the generated repository id and
the body's final state. -/
def addRepositoryBody (failAt : Option Nat) (repo : Repository) (db : Database) :
    Except String (Nat × Database) := do
  let (gitHubRepositoryID, db1) ← (do
    match repo.gitHubRepository with
    | some gitHubRepository =>
      let login := gitHubRepository.owner.login
      if failAt = some 0 then Except.error "store failure" else
      let existingOwner := ownersFirstByLoginIgnoreCase db.owners login
      let (ownerID, dbO) ← (do
        match existingOwner with
        | some o => Except.ok (o.id, db)
        | none =>
          if failAt = some 1 then Except.error "store failure" else
          Except.ok (ownersAdd db login gitHubRepository.owner.endpoint))
      if failAt = some 2 then Except.error "store failure" else
      let (gid, dbG) := gitHubRepositoriesAdd dbO gitHubRepository.name ownerID
        gitHubRepository.private gitHubRepository.fork gitHubRepository.htmlURL
      Except.ok (some gid, dbG)
    | none => Except.ok ((none : Option Nat), db))
  if failAt = some 3 then Except.error "store failure" else
  let (id, db2) := repositoriesAdd db1 repo.path gitHubRepositoryID
  Except.ok (id, db2)

/-- `addRepository(repo)` with fault injection: run the body in a read-write
transaction over all three tables and, on success, return
`repo.repositoryWithID(id)` for the generated repository id. -/
def addRepositoryF (failAt : Option Nat) (repo : Repository) (db : Database) :
    Except String Repository × Database :=
  match transaction db (addRepositoryBody failAt repo) with
  | (.ok id, db') => (.ok (repo.repositoryWithID id), db')
  | (.error e, db') => (.error e, db')

/-- `addRepository(repo)`: the normal (fault-free) run. -/
def addRepository (repo : Repository) (db : Database) :
    Except String Repository × Database :=
  addRepositoryF none repo db

/-- The transaction body of `updateGitHubRepository`, step for step:
load the repository row by the input's id (`DataError` on a null id,
`TypeError` on reading `gitHubRepositoryID` of a missing row); load the
existing gitHubRepositories row at the stored link (`DataError` on a null
link); read `existingGitHubRepo.ownerID` BEFORE the absence test (a
`TypeError` when the row is absent, making the `if (!existingGitHubRepo)`
owner-insert branch unreachable); then read the new values off the input's
hosted repository (`TypeError` on a null one) and `put` them at the existing
row's id. -/
def updateGitHubRepositoryBody (repository : Repository) (db : Database) :
    Except String (Unit × Database) := do
  let localRepo? ← tableGet db.repositories (fun r => r.id) repository.id
  let newGitHubRepo := repository.gitHubRepository
  let localRepo ← (match localRepo? with
    | none => Except.error "TypeError: cannot read gitHubRepositoryID of undefined"
    | some r => Except.ok r)
  let existingGitHubRepo? ←
    tableGet db.gitHubRepositories (fun r => r.id) localRepo.gitHubRepositoryID
  let ownerID0 ← (match existingGitHubRepo? with
    | none => Except.error "TypeError: cannot read ownerID of undefined"
    | some r => Except.ok r.ownerID)
  let (ownerID, db1) ← (do
    match existingGitHubRepo? with
    | none =>
      match newGitHubRepo with
      | none => Except.error "TypeError: cannot read owner of null"
      | some g => Except.ok (ownersAdd db g.owner.login g.owner.endpoint)
    | some _ => Except.ok (ownerID0, db))
  let newG ← (match newGitHubRepo with
    | none => Except.error "TypeError: cannot read private of null"
    | some g => Except.ok g)
  match (match existingGitHubRepo? with
         | some e => some e.id
         | none => none : Option Nat) with
  | none => Except.error "DataError: invalid key"
  | some key =>
    Except.ok ((),
      { db1 with
          gitHubRepositories :=
            putRow db1.gitHubRepositories (fun r => r.id)
              ⟨key, newG.name, ownerID, newG.private, newG.fork, newG.htmlURL⟩ })

/-- `updateGitHubRepository(repository)`: the body in a read-write transaction
over all three tables; no return value. -/
def updateGitHubRepository (repository : Repository) (db : Database) :
    Except String Unit × Database :=
  transaction db (updateGitHubRepositoryBody repository)

/-! ### Helper lemmas on the state effect of `addRepository` -/

/-- When the input carries a hosted repository and the case-insensitive login
lookup finds owner row `o`, `addRepository` leaves `owners` unchanged and
appends one `gitHubRepositories` row referencing `o.id` and one
`repositories` row referencing that row's id. -/
theorem addRepository_state_existing_owner (repo : Repository) (db : Database)
    (g : GitHubRepository) (o : OwnerRow)
    (hg : repo.gitHubRepository = some g)
    (ho : ownersFirstByLoginIgnoreCase db.owners g.owner.login = some o) :
    (addRepository repo db).2 =
      { db with
          gitHubRepositories := db.gitHubRepositories ++
            [⟨db.nextGitHubRepositoryID, g.name, o.id, g.private, g.fork, g.htmlURL⟩]
          nextGitHubRepositoryID := db.nextGitHubRepositoryID + 1
          repositories := db.repositories ++
            [⟨db.nextRepositoryID, repo.path, some db.nextGitHubRepositoryID⟩]
          nextRepositoryID := db.nextRepositoryID + 1 } := by
  simp [addRepository, addRepositoryF, addRepositoryBody, transaction, hg, ho,
    gitHubRepositoriesAdd, repositoriesAdd, bind, Except.bind]

/-- When the input carries a hosted repository and the case-insensitive login
lookup finds no owner, `addRepository` appends one `owners` row, one
`gitHubRepositories` row referencing it, and one `repositories` row. -/
theorem addRepository_state_new_owner (repo : Repository) (db : Database)
    (g : GitHubRepository)
    (hg : repo.gitHubRepository = some g)
    (ho : ownersFirstByLoginIgnoreCase db.owners g.owner.login = none) :
    (addRepository repo db).2 =
      { db with
          owners := db.owners ++ [⟨db.nextOwnerID, g.owner.login, g.owner.endpoint⟩]
          nextOwnerID := db.nextOwnerID + 1
          gitHubRepositories := db.gitHubRepositories ++
            [⟨db.nextGitHubRepositoryID, g.name, db.nextOwnerID, g.private, g.fork, g.htmlURL⟩]
          nextGitHubRepositoryID := db.nextGitHubRepositoryID + 1
          repositories := db.repositories ++
            [⟨db.nextRepositoryID, repo.path, some db.nextGitHubRepositoryID⟩]
          nextRepositoryID := db.nextRepositoryID + 1 } := by
  simp [addRepository, addRepositoryF, addRepositoryBody, transaction, hg, ho,
    ownersAdd, gitHubRepositoriesAdd, repositoriesAdd, bind, Except.bind]

/-- When the input carries no hosted repository, `addRepository` only appends
one unlinked `repositories` row. -/
theorem addRepository_state_no_hosted (repo : Repository) (db : Database)
    (hg : repo.gitHubRepository = none) :
    (addRepository repo db).2 =
      { db with
          repositories := db.repositories ++ [⟨db.nextRepositoryID, repo.path, none⟩]
          nextRepositoryID := db.nextRepositoryID + 1 } := by
  simp [addRepository, addRepositoryF, addRepositoryBody, transaction, hg,
    repositoriesAdd, bind, Except.bind]

/-- The value returned by `addRepository`: the input with the generated
repository id filled in. -/
theorem addRepository_fst (repo : Repository) (db : Database) :
    (addRepository repo db).1 =
      .ok { path := repo.path, gitHubRepository := repo.gitHubRepository,
            id := some db.nextRepositoryID } := by
  cases hg : repo.gitHubRepository with
  | none =>
    simp [addRepository, addRepositoryF, addRepositoryBody, transaction, hg,
      repositoriesAdd, Repository.repositoryWithID, bind, Except.bind]
  | some g =>
    cases ho : ownersFirstByLoginIgnoreCase db.owners g.owner.login with
    | none =>
      simp [addRepository, addRepositoryF, addRepositoryBody, transaction, hg, ho,
        ownersAdd, gitHubRepositoriesAdd, repositoriesAdd, Repository.repositoryWithID,
        bind, Except.bind]
    | some o =>
      simp [addRepository, addRepositoryF, addRepositoryBody, transaction, hg, ho,
        gitHubRepositoriesAdd, repositoriesAdd, Repository.repositoryWithID,
        bind, Except.bind]

/-! ### Claim theorems -/

/-- C7: `addRepository` returns the input Repository re-expressed with the
newly generated Repository id (the table's next auto-increment value), every
other field — the path and the attached hosted repository and owner data —
unchanged; the returned value is the input plus the generated id, not a value
re-read from storage. -/
theorem addRepository_returns_input_with_generated_id (repo : Repository) (db : Database) :
    (addRepository repo db).1 = .ok (repo.repositoryWithID db.nextRepositoryID) ∧
    repo.repositoryWithID db.nextRepositoryID =
      { path := repo.path, gitHubRepository := repo.gitHubRepository,
        id := some db.nextRepositoryID } := by
  refine ⟨?_, by simp [Repository.repositoryWithID]⟩
  rw [addRepository_fst repo db]
  simp [Repository.repositoryWithID]

/-- C9: `updateGitHubRepository` never writes the `repositories` table — on
every input, both on commit and on abort, the table's rows and its
auto-increment counter are exactly those of the pre-state, so the Repository
row's path, id and stored hosted-repository link are never mutated. -/
theorem updateGitHubRepository_preserves_repositories_table
    (repository : Repository) (db : Database) :
    ((updateGitHubRepository repository db).2).repositories = db.repositories ∧
    ((updateGitHubRepository repository db).2).nextRepositoryID = db.nextRepositoryID := by
  unfold updateGitHubRepository transaction updateGitHubRepositoryBody
  simp only [bind, Except.bind, tableGet, ownersAdd]
  rcases hid : repository.id with _ | rid
  · simp [hid]
  · simp only [hid]
    rcases hfind : db.repositories.find? (fun r => r.id == rid) with _ | lr
    · simp [hfind]
    · simp only [hfind]
      rcases hgid : lr.gitHubRepositoryID with _ | gid
      · simp [hgid]
      · simp only [hgid]
        rcases hgh : db.gitHubRepositories.find? (fun r => r.id == gid) with _ | e
        · simp [hgh]
        · rcases hng : repository.gitHubRepository with _ | g <;> simp [hgh, hng]

/-- C10: `updateGitHubRepository` reads `existingGitHubRepo.ownerID` before
testing `if (!existingGitHubRepo)`, so when the Repository row's stored
hosted-repository id resolves to no `gitHubRepositories` row the call fails
with a `TypeError` before any write — the absent-row owner-insert branch is
unreachable — and the whole state, all three tables included, is unchanged. -/
theorem updateGitHubRepository_dangling_link_fails_without_write
    (repository : Repository) (db : Database) (rid gid : Nat) (lr : RepositoryRow)
    (hid : repository.id = some rid)
    (hlr : db.repositories.find? (fun r => r.id == rid) = some lr)
    (hgid : lr.gitHubRepositoryID = some gid)
    (hmiss : db.gitHubRepositories.find? (fun r => r.id == gid) = none) :
    updateGitHubRepository repository db =
      (.error "TypeError: cannot read ownerID of undefined", db) := by
  unfold updateGitHubRepository transaction updateGitHubRepositoryBody
  simp [bind, Except.bind, tableGet, hid, hlr, hgid, hmiss]

/-- Witness for C10 at a concrete state: one repository row linked to the
nonexistent gitHubRepositories id 42. -/
theorem updateGitHubRepository_dangling_link_fails_without_write_witness :
    updateGitHubRepository
        ⟨"/repo", some ⟨"proj", ⟨"Alice", "https://api.example.com"⟩, false, false, "u"⟩, some 0⟩
        ⟨[⟨0, "/repo", some 42⟩], [], [], 1, 0, 0⟩ =
      (.error "TypeError: cannot read ownerID of undefined",
       ⟨[⟨0, "/repo", some 42⟩], [], [], 1, 0, 0⟩) :=
  updateGitHubRepository_dangling_link_fails_without_write _ _ 0 42
    ⟨0, "/repo", some 42⟩ rfl rfl rfl rfl

/-- C4 (divergence evidence): on a Repository row whose stored
hosted-repository id 7 resolves to no `gitHubRepositories` row, the call does
NOT insert a brand-new Owner row from the input's owner data — it raises a
`TypeError` and leaves the state, the `owners` table included, unchanged. -/
theorem updateGitHubRepository_missing_row_raises_instead_of_inserting_owner :
    updateGitHubRepository
        ⟨"/r2", some ⟨"widget", ⟨"Bob", "https://api.ghe.example"⟩, true, false, "h"⟩, some 3⟩
        ⟨[⟨3, "/r2", some 7⟩], [], [], 4, 0, 0⟩ =
      (.error "TypeError: cannot read ownerID of undefined",
       ⟨[⟨3, "/r2", some 7⟩], [], [], 4, 0, 0⟩) := by
  rfl

/-- Soundness of the inflation loop: on success it returns, positionally for
each row, the inflation of that row through its (necessarily found) referenced
rows. -/
theorem inflateRepos_sound (db : Database) :
    ∀ rows l, inflateRepos db rows = .ok l →
      List.Forall₂ (fun (row : RepositoryRow) (r : Repository) =>
        (row.gitHubRepositoryID = none → r = ⟨row.path, none, some row.id⟩) ∧
        (∀ gid gh o, row.gitHubRepositoryID = some gid →
          db.gitHubRepositories.find? (fun x => x.id == gid) = some gh →
          db.owners.find? (fun x => x.id == gh.ownerID) = some o →
          r = ⟨row.path,
               some ⟨gh.name, ⟨o.login, o.endpoint⟩, gh.private, gh.fork, gh.htmlURL⟩,
               some row.id⟩)) rows l := by
  intro rows
  induction rows with
  | nil =>
    intro l h
    simp [inflateRepos] at h
    subst h
    exact .nil
  | cons repo rest ih =>
    intro l h
    unfold inflateRepos at h
    rcases hgid : repo.gitHubRepositoryID with _ | gid
    · simp only [hgid] at h
      rcases hrec : inflateRepos db rest with e | tail
      · simp [hrec, Except.map] at h
      · simp only [hrec, Except.map] at h
        cases h
        refine .cons ⟨fun _ => rfl, ?_⟩ (ih tail hrec)
        intro gid gh o hg
        rw [hgid] at hg
        cases hg
    · simp only [hgid] at h
      rcases hgh : db.gitHubRepositories.find? (fun x => x.id == gid) with _ | gh
      · simp [hgh] at h
      · simp only [hgh] at h
        rcases hown : db.owners.find? (fun x => x.id == gh.ownerID) with _ | o
        · simp [hown] at h
        · simp only [hown] at h
          rcases hrec : inflateRepos db rest with e | tail
          · simp [hrec, Except.map] at h
          · simp only [hrec, Except.map] at h
            cases h
            refine .cons ⟨?_, ?_⟩ (ih tail hrec)
            · intro hn
              rw [hgid] at hn
              cases hn
            intro gid2 gh2 o2 hg2 hgh2 hown2
            rw [hgid] at hg2
            cases hg2
            rw [hgh] at hgh2
            cases hgh2
            rw [hown] at hown2
            cases hown2
            rfl

/-- The inflation loop fails whenever some row's link is dangling: the
`gitHubRepositories` row is missing, or its owner is. -/
theorem inflateRepos_error_of_bad (db : Database) :
    ∀ rows (row : RepositoryRow) (gid : Nat), row ∈ rows →
      row.gitHubRepositoryID = some gid →
      (db.gitHubRepositories.find? (fun x => x.id == gid) = none ∨
       ∃ gh, db.gitHubRepositories.find? (fun x => x.id == gid) = some gh ∧
         db.owners.find? (fun x => x.id == gh.ownerID) = none) →
      ∃ e, inflateRepos db rows = .error e := by
  intro rows
  induction rows with
  | nil => intro row gid h; cases h
  | cons head rest ih =>
    intro row gid hmem hgid hbad
    rcases List.mem_cons.mp hmem with rfl | hmem2
    · unfold inflateRepos
      simp only [hgid]
      rcases hbad with hnone | ⟨gh, hgh, hown⟩
      · simp only [hnone]
        exact ⟨_, rfl⟩
      · simp only [hgh, hown]
        exact ⟨_, rfl⟩
    · obtain ⟨e, he⟩ := ih row gid hmem2 hgid hbad
      unfold inflateRepos
      rcases hh : head.gitHubRepositoryID with _ | hgid2
      · simp only [hh, he, Except.map]
        exact ⟨e, rfl⟩
      · simp only [hh]
        rcases hgh : db.gitHubRepositories.find? (fun x => x.id == hgid2) with _ | gh
        · simp only [hgh]
          exact ⟨_, rfl⟩
        · simp only [hgh]
          rcases hown : db.owners.find? (fun x => x.id == gh.ownerID) with _ | o
          · simp only [hown]
            exact ⟨_, rfl⟩
          · simp only [hown, he, Except.map]
            exact ⟨e, rfl⟩

/-- C5: for every Repository row whose stored hosted-repository id is null,
`getRepositories` returns for that row (positionally, via `List.Forall₂`) a
Repository whose hosted-repository field is absent and whose path and id equal
the stored row's values. -/
theorem getRepositories_unlinked_rows (db : Database) (l : List Repository)
    (h : getRepositories db = .ok l) :
    List.Forall₂ (fun (row : RepositoryRow) (r : Repository) =>
      row.gitHubRepositoryID = none →
        r.gitHubRepository = none ∧ r.path = row.path ∧ r.id = some row.id)
      db.repositories l := by
  refine (inflateRepos_sound db db.repositories l h).imp ?_
  intro row r hp hnull
  rw [hp.1 hnull]
  exact ⟨rfl, rfl, rfl⟩

/-- Witness for C5 at a concrete state holding one unlinked row. -/
theorem getRepositories_unlinked_rows_witness :
    List.Forall₂ (fun (row : RepositoryRow) (r : Repository) =>
      row.gitHubRepositoryID = none →
        r.gitHubRepository = none ∧ r.path = row.path ∧ r.id = some row.id)
      [⟨0, "/p", none⟩] [⟨"/p", none, some 0⟩] :=
  getRepositories_unlinked_rows ⟨[⟨0, "/p", none⟩], [], [], 1, 0, 0⟩ _ rfl

/-- C3: round-trip.  First, whenever `getRepositories` succeeds, every row
whose stored hosted-repository id resolves to existing `gitHubRepositories`
and `owners` rows is returned as an inflated Repository whose hosted and owner
fields (name, private, fork, htmlURL; login, endpoint) equal the referenced
rows' stored values exactly.  Second, in particular, `addRepository` of a
hosted repository followed by `getRepositories` reproduces the inserted field
values exactly. -/
theorem getRepositories_roundtrip :
    (∀ (db : Database) (l : List Repository), getRepositories db = .ok l →
      List.Forall₂ (fun (row : RepositoryRow) (r : Repository) =>
        ∀ gid gh o, row.gitHubRepositoryID = some gid →
          db.gitHubRepositories.find? (fun x => x.id == gid) = some gh →
          db.owners.find? (fun x => x.id == gh.ownerID) = some o →
          r = ⟨row.path,
               some ⟨gh.name, ⟨o.login, o.endpoint⟩, gh.private, gh.fork, gh.htmlURL⟩,
               some row.id⟩) db.repositories l) ∧
    (∀ (repo : Repository) (g : GitHubRepository), repo.gitHubRepository = some g →
      getRepositories (addRepository repo emptyDatabase).2 =
        .ok [⟨repo.path, some g, some 0⟩]) := by
  constructor
  · intro db l h
    refine (inflateRepos_sound db db.repositories l h).imp ?_
    intro row r hp
    exact hp.2
  · intro repo g hg
    rw [addRepository_state_new_owner repo emptyDatabase g hg
      (by simp [ownersFirstByLoginIgnoreCase, emptyDatabase])]
    obtain ⟨name, ⟨login, endpoint⟩, priv, fork, url⟩ := g
    simp [getRepositories, inflateRepos, emptyDatabase, Except.map]

/-- Witness for C3: a concrete insert followed by a list reproduces the
inserted values. -/
theorem getRepositories_roundtrip_witness :
    getRepositories
        (addRepository ⟨"/repo", some ⟨"proj", ⟨"Alice", "https://api.example.com"⟩,
          false, false, "https://example.com/a/proj"⟩, none⟩ emptyDatabase).2 =
      .ok [⟨"/repo", some ⟨"proj", ⟨"Alice", "https://api.example.com"⟩,
        false, false, "https://example.com/a/proj"⟩, some 0⟩] :=
  getRepositories_roundtrip.2 _ _ rfl

/-- C6: `getRepositories` propagates an error whenever some Repository row
carries a non-null hosted-repository id whose `gitHubRepositories` row is
absent, or whose `gitHubRepositories` row references an absent `owners`
row. -/
theorem getRepositories_integrity_violation_fails (db : Database)
    (row : RepositoryRow) (gid : Nat)
    (hmem : row ∈ db.repositories) (hgid : row.gitHubRepositoryID = some gid)
    (hbad : db.gitHubRepositories.find? (fun x => x.id == gid) = none ∨
      ∃ gh, db.gitHubRepositories.find? (fun x => x.id == gid) = some gh ∧
        db.owners.find? (fun x => x.id == gh.ownerID) = none) :
    ∃ e, getRepositories db = .error e :=
  inflateRepos_error_of_bad db db.repositories row gid hmem hgid hbad

/-- Witness for C6 at a concrete state with one dangling link. -/
theorem getRepositories_integrity_violation_fails_witness :
    ∃ e, getRepositories ⟨[⟨0, "/q", some 5⟩], [], [], 1, 0, 0⟩ = .error e :=
  getRepositories_integrity_violation_fails ⟨[⟨0, "/q", some 5⟩], [], [], 1, 0, 0⟩
    ⟨0, "/q", some 5⟩ 5 (List.mem_singleton.mpr rfl) rfl (Or.inl rfl)

/-- On every input, `addRepository` appends exactly one `repositories` row,
carrying the generated id and the input's path, and bumps the table's id
counter by one. -/
theorem addRepository_repositories_effect (repo : Repository) (db : Database) :
    ∃ gid, (addRepository repo db).2.repositories =
        db.repositories ++ [⟨db.nextRepositoryID, repo.path, gid⟩] ∧
      (addRepository repo db).2.nextRepositoryID = db.nextRepositoryID + 1 := by
  cases hg : repo.gitHubRepository with
  | none =>
    refine ⟨none, ?_, ?_⟩ <;> rw [addRepository_state_no_hosted repo db hg]
  | some g =>
    cases ho : ownersFirstByLoginIgnoreCase db.owners g.owner.login with
    | none =>
      refine ⟨some db.nextGitHubRepositoryID, ?_, ?_⟩ <;>
        rw [addRepository_state_new_owner repo db g hg ho]
    | some o =>
      refine ⟨some db.nextGitHubRepositoryID, ?_, ?_⟩ <;>
        rw [addRepository_state_existing_owner repo db g o hg ho]

/-- C8: calling `addRepository` twice with the same input value produces two
distinct generated Repository ids — the results differ exactly in their id —
and two distinct `repositories` rows with the same path: no implicit merge or
dedup on path occurs. -/
theorem addRepository_twice_distinct (repo : Repository) (db : Database) :
    (addRepository repo db).1 = .ok (repo.repositoryWithID db.nextRepositoryID) ∧
    (addRepository repo (addRepository repo db).2).1 =
      .ok (repo.repositoryWithID (db.nextRepositoryID + 1)) ∧
    repo.repositoryWithID db.nextRepositoryID ≠
      repo.repositoryWithID (db.nextRepositoryID + 1) ∧
    ∃ row1 row2,
      (addRepository repo (addRepository repo db).2).2.repositories =
        db.repositories ++ [row1, row2] ∧
      row1.id ≠ row2.id ∧ row1.path = repo.path ∧ row2.path = repo.path := by
  obtain ⟨gid1, hrows1, hnext1⟩ := addRepository_repositories_effect repo db
  obtain ⟨gid2, hrows2, hnext2⟩ :=
    addRepository_repositories_effect repo (addRepository repo db).2
  refine ⟨?_, ?_, ?_, ?_⟩
  · rw [addRepository_fst repo db]
    simp [Repository.repositoryWithID]
  · rw [addRepository_fst repo (addRepository repo db).2, hnext1]
    simp [Repository.repositoryWithID]
  · simp [Repository.repositoryWithID]
  · refine ⟨⟨db.nextRepositoryID, repo.path, gid1⟩,
      ⟨db.nextRepositoryID + 1, repo.path, gid2⟩, ?_, by simp, rfl, rfl⟩
    rw [hrows2, hrows1, hnext1]
    simp


/-- C2: atomicity of `addRepository`.  Whatever primitive the underlying
store is made to fail at (`failAt` injects the abort, e.g. site 2 = after the
Owner insert, before the GitHubRepository insert), an aborted call leaves the
visible state exactly the pre-state — no Owner, GitHubRepository or Repository
row from the call is visible; a committed call with a hosted repository has
written the full triple: the new `repositories` row references the new
`gitHubRepositories` row, whose owner is either a pre-existing Owner row or
the one Owner row the call inserted. -/
theorem addRepository_atomic (failAt : Option Nat) (repo : Repository) (db : Database) :
    (∀ e, (addRepositoryF failAt repo db).1 = .error e →
      (addRepositoryF failAt repo db).2 = db) ∧
    (∀ r g, (addRepositoryF failAt repo db).1 = .ok r →
      repo.gitHubRepository = some g →
      ∃ rrow ghRow,
        (addRepositoryF failAt repo db).2.repositories = db.repositories ++ [rrow] ∧
        (addRepositoryF failAt repo db).2.gitHubRepositories =
          db.gitHubRepositories ++ [ghRow] ∧
        rrow.gitHubRepositoryID = some ghRow.id ∧
        ((addRepositoryF failAt repo db).2.owners = db.owners ∨
         (addRepositoryF failAt repo db).2.owners =
           db.owners ++ [⟨ghRow.ownerID, g.owner.login, g.owner.endpoint⟩])) := by
  constructor
  · intro e he
    unfold addRepositoryF transaction at he ⊢
    rcases hb : addRepositoryBody failAt repo db with e2 | pair
    · simp [hb]
    · simp [hb] at he
  · intro r g hr hg
    unfold addRepositoryF transaction at hr ⊢
    rcases hb : addRepositoryBody failAt repo db with e2 | pair
    · simp [hb] at hr
    · simp only [hb]
      unfold addRepositoryBody at hb
      simp only [hg, bind, Except.bind] at hb
      by_cases h0 : failAt = some 0
      · simp [h0] at hb
      · simp only [h0, if_false, ite_false] at hb
        rcases ho : ownersFirstByLoginIgnoreCase db.owners g.owner.login with _ | o
        · simp only [ho] at hb
          by_cases h1 : failAt = some 1
          · simp [h1] at hb
          · simp only [h1, if_false, ite_false] at hb
            by_cases h2 : failAt = some 2
            · simp [h2, ownersAdd] at hb
            · simp only [h2, if_false, ite_false, ownersAdd, gitHubRepositoriesAdd] at hb
              by_cases h3 : failAt = some 3
              · simp [h3] at hb
              · simp only [h3, if_false, ite_false, repositoriesAdd] at hb
                cases hb
                refine ⟨⟨db.nextRepositoryID, repo.path, some db.nextGitHubRepositoryID⟩,
                  ⟨db.nextGitHubRepositoryID, g.name, db.nextOwnerID,
                   g.private, g.fork, g.htmlURL⟩, by simp, by simp, rfl, Or.inr (by simp)⟩
        · simp only [ho] at hb
          by_cases h2 : failAt = some 2
          · simp [h2] at hb
          · simp only [h2, if_false, ite_false, gitHubRepositoriesAdd] at hb
            by_cases h3 : failAt = some 3
            · simp [h3] at hb
            · simp only [h3, if_false, ite_false, repositoriesAdd] at hb
              cases hb
              refine ⟨⟨db.nextRepositoryID, repo.path, some db.nextGitHubRepositoryID⟩,
                ⟨db.nextGitHubRepositoryID, g.name, o.id,
                 g.private, g.fork, g.htmlURL⟩, by simp, by simp, rfl, Or.inl (by simp)⟩

/-- Witness for C2: a concrete abort between the Owner insert and the
GitHubRepository insert leaves the empty store empty, and the fault-free run
writes the full triple. -/
theorem addRepository_atomic_witness :
    (addRepositoryF (some 2)
        ⟨"/w", some ⟨"n", ⟨"Login", "ep"⟩, false, true, "h"⟩, none⟩ emptyDatabase).2 =
      emptyDatabase ∧
    (∃ rrow ghRow,
      (addRepositoryF none
          ⟨"/w", some ⟨"n", ⟨"Login", "ep"⟩, false, true, "h"⟩, none⟩
          emptyDatabase).2.repositories = emptyDatabase.repositories ++ [rrow] ∧
      (addRepositoryF none
          ⟨"/w", some ⟨"n", ⟨"Login", "ep"⟩, false, true, "h"⟩, none⟩
          emptyDatabase).2.gitHubRepositories =
        emptyDatabase.gitHubRepositories ++ [ghRow] ∧
      rrow.gitHubRepositoryID = some ghRow.id ∧
      ((addRepositoryF none
          ⟨"/w", some ⟨"n", ⟨"Login", "ep"⟩, false, true, "h"⟩, none⟩
          emptyDatabase).2.owners = emptyDatabase.owners ∨
       (addRepositoryF none
          ⟨"/w", some ⟨"n", ⟨"Login", "ep"⟩, false, true, "h"⟩, none⟩
          emptyDatabase).2.owners =
         emptyDatabase.owners ++ [⟨ghRow.ownerID, "Login", "ep"⟩])) :=
  ⟨(addRepository_atomic (some 2)
      ⟨"/w", some ⟨"n", ⟨"Login", "ep"⟩, false, true, "h"⟩, none⟩ emptyDatabase).1
      "store failure" rfl,
   (addRepository_atomic none
      ⟨"/w", some ⟨"n", ⟨"Login", "ep"⟩, false, true, "h"⟩, none⟩ emptyDatabase).2
      ⟨"/w", some ⟨"n", ⟨"Login", "ep"⟩, false, true, "h"⟩, some 0⟩
      ⟨"n", ⟨"Login", "ep"⟩, false, true, "h"⟩ rfl rfl⟩

/-- A list whose filter has at most one element and whose `find?` succeeds
filters to exactly that one found element. -/
theorem filter_eq_singleton_of_find? {α : Type} (l : List α) (p : α → Bool) (a : α)
    (hfind : l.find? p = some a) (hlen : (l.filter p).length ≤ 1) :
    l.filter p = [a] := by
  have hmem : a ∈ l.filter p :=
    List.mem_filter.mpr ⟨List.mem_of_find?_eq_some hfind, List.find?_some hfind⟩
  rcases hf : l.filter p with _ | ⟨b, rest⟩
  · rw [hf] at hmem
    cases hmem
  · rw [hf] at hmem hlen
    rcases rest with _ | ⟨c, rest2⟩
    · obtain rfl := List.mem_singleton.mp hmem
      rfl
    · simp at hlen

/-- C1: owner dedup.  Starting from a state satisfying the at-most-one-Owner-
per-case-insensitive-login invariant for the given login, two `addRepository`
calls whose hosted repositories carry logins equal ignoring case leave exactly
one Owner row with that login in the owners table, and the two inserted
`gitHubRepositories` rows both reference that single Owner row's id. -/
theorem addRepository_owner_dedup_ignore_case
    (repo1 repo2 : Repository) (db : Database) (g1 g2 : GitHubRepository)
    (h1 : repo1.gitHubRepository = some g1) (h2 : repo2.gitHubRepository = some g2)
    (hlogin : lowerString g1.owner.login = lowerString g2.owner.login)
    (hinv : (db.owners.filter
      (fun o => lowerString o.login == lowerString g1.owner.login)).length ≤ 1) :
    ∃ o gh1 gh2,
      ((addRepository repo2 (addRepository repo1 db).2).2.owners.filter
        (fun ow => lowerString ow.login == lowerString g1.owner.login)) = [o] ∧
      (addRepository repo2 (addRepository repo1 db).2).2.gitHubRepositories =
        db.gitHubRepositories ++ [gh1, gh2] ∧
      gh1.ownerID = o.id ∧ gh2.ownerID = o.id := by
  have hcongr : ownersFirstByLoginIgnoreCase db.owners g2.owner.login =
      ownersFirstByLoginIgnoreCase db.owners g1.owner.login := by
    unfold ownersFirstByLoginIgnoreCase
    rw [← hlogin]
  rcases ho : ownersFirstByLoginIgnoreCase db.owners g1.owner.login with _ | o0
  · -- no existing owner: the first call inserts one, the second reuses it
    have hdb1 := addRepository_state_new_owner repo1 db g1 h1 ho
    have hfind1 : db.owners.find?
        (fun o => lowerString o.login == lowerString g1.owner.login) = none := ho
    have ho2 : ownersFirstByLoginIgnoreCase (addRepository repo1 db).2.owners
        g2.owner.login = some ⟨db.nextOwnerID, g1.owner.login, g1.owner.endpoint⟩ := by
      rw [hdb1]
      show ownersFirstByLoginIgnoreCase
        (db.owners ++ [⟨db.nextOwnerID, g1.owner.login, g1.owner.endpoint⟩])
        g2.owner.login = some ⟨db.nextOwnerID, g1.owner.login, g1.owner.endpoint⟩
      unfold ownersFirstByLoginIgnoreCase
      rw [List.find?_append]
      unfold ownersFirstByLoginIgnoreCase at hcongr
      rw [hcongr, hfind1]
      simp [List.find?, hlogin]
    have hdb2 := addRepository_state_existing_owner repo2 (addRepository repo1 db).2 g2
      ⟨db.nextOwnerID, g1.owner.login, g1.owner.endpoint⟩ h2 ho2
    rw [hdb2, hdb1]
    have hnil : db.owners.filter
        (fun ow => lowerString ow.login == lowerString g1.owner.login) = [] := by
      rw [List.filter_eq_nil_iff]
      intro a ha
      exact (List.find?_eq_none.mp hfind1) a ha
    refine ⟨⟨db.nextOwnerID, g1.owner.login, g1.owner.endpoint⟩,
      ⟨db.nextGitHubRepositoryID, g1.name, db.nextOwnerID, g1.private, g1.fork, g1.htmlURL⟩,
      ⟨db.nextGitHubRepositoryID + 1, g2.name, db.nextOwnerID, g2.private, g2.fork, g2.htmlURL⟩,
      ?_, ?_, rfl, rfl⟩
    · show List.filter (fun ow => lowerString ow.login == lowerString g1.owner.login)
        (db.owners ++ [⟨db.nextOwnerID, g1.owner.login, g1.owner.endpoint⟩]) =
        ([⟨db.nextOwnerID, g1.owner.login, g1.owner.endpoint⟩] : List OwnerRow)
      rw [List.filter_append, hnil]
      simp
    · simp
  · -- an owner already exists: both calls reuse it
    have hdb1 := addRepository_state_existing_owner repo1 db g1 o0 h1 ho
    have ho2 : ownersFirstByLoginIgnoreCase (addRepository repo1 db).2.owners
        g2.owner.login = some o0 := by
      rw [hdb1]
      show ownersFirstByLoginIgnoreCase db.owners g2.owner.login = some o0
      rw [hcongr, ho]
    have hdb2 := addRepository_state_existing_owner repo2 (addRepository repo1 db).2 g2
      o0 h2 ho2
    rw [hdb2, hdb1]
    refine ⟨o0,
      ⟨db.nextGitHubRepositoryID, g1.name, o0.id, g1.private, g1.fork, g1.htmlURL⟩,
      ⟨db.nextGitHubRepositoryID + 1, g2.name, o0.id, g2.private, g2.fork, g2.htmlURL⟩,
      ?_, ?_, rfl, rfl⟩
    · show db.owners.filter (fun ow => lowerString ow.login == lowerString g1.owner.login) = [o0]
      exact filter_eq_singleton_of_find? db.owners _ o0 ho hinv
    · simp

/-- Witness for C1: logins `"bob"` and `"BOB"` from the empty store yield one
owner row referenced by both inserted rows. -/
theorem addRepository_owner_dedup_ignore_case_witness :
    ∃ o gh1 gh2,
      ((addRepository ⟨"/b", some ⟨"p2", ⟨"BOB", "e2"⟩, true, false, "u2"⟩, none⟩
          (addRepository ⟨"/a", some ⟨"p1", ⟨"bob", "e1"⟩, false, false, "u1"⟩, none⟩
            emptyDatabase).2).2.owners.filter
        (fun ow => lowerString ow.login == lowerString "bob")) = [o] ∧
      (addRepository ⟨"/b", some ⟨"p2", ⟨"BOB", "e2"⟩, true, false, "u2"⟩, none⟩
          (addRepository ⟨"/a", some ⟨"p1", ⟨"bob", "e1"⟩, false, false, "u1"⟩, none⟩
            emptyDatabase).2).2.gitHubRepositories =
        emptyDatabase.gitHubRepositories ++ [gh1, gh2] ∧
      gh1.ownerID = o.id ∧ gh2.ownerID = o.id :=
  addRepository_owner_dedup_ignore_case
    ⟨"/a", some ⟨"p1", ⟨"bob", "e1"⟩, false, false, "u1"⟩, none⟩
    ⟨"/b", some ⟨"p2", ⟨"BOB", "e2"⟩, true, false, "u2"⟩, none⟩
    emptyDatabase
    ⟨"p1", ⟨"bob", "e1"⟩, false, false, "u1"⟩
    ⟨"p2", ⟨"BOB", "e2"⟩, true, false, "u2"⟩
    rfl rfl (by decide) (by decide)

end RepositoriesStore
